import Mathlib

/-
Verification of the AniFlix backend (src/main.py, src/schemas.py): a shallow
embedding of the query-filter construction, watchlist join, progress upsert and
single-show lookup, with the MongoDB collections modelled as Lean lists of
documents and the pymongo/bson primitives the code calls (`find` with a filter,
`limit`, `find_one`, `update_one` with `upsert=True`, `ObjectId` validation,
`$regex` with the `i` option, `$in`) modelled by their documented semantics.
-/

set_option autoImplicit false

namespace AniFlix

/-! ### ObjectId (bson)

`ObjectId(s)` on a string succeeds exactly when `s` is 24 hexadecimal digits,
and `ObjectId.is_valid(s)` tests the same condition.  Two hex strings denote
the same ObjectId up to letter case; we therefore represent a stored ObjectId
by its canonical lowercase 24-hex string and lowercase at construction. -/

/-- One character of a hexadecimal ObjectId string. -/
def isHexChar (c : Char) : Bool :=
  c.isDigit || ('a' ≤ c && c ≤ 'f') || ('A' ≤ c && c ≤ 'F')

/-- Embeds `bson.ObjectId.is_valid` on strings: exactly 24 hex characters. -/
def isValidObjectId (s : String) : Bool :=
  s.length == 24 && s.toList.all isHexChar

/-- Characterwise lowercase (the same function as `String.toLower`, phrased
over the character list so that it evaluates by unfolding). -/
def strLower (s : String) : String :=
  ⟨s.toList.map Char.toLower⟩

/-- Embeds the `ObjectId(s)` constructor: fails (raises) unless `s` is a valid
24-hex string, and otherwise yields the canonical (lowercase) form, since
ObjectId equality is on the underlying bytes, not on the letter case. -/
def objectIdParse (s : String) : Option String :=
  if isValidObjectId s then some (strLower s) else none

/-! ### Record shapes (src/schemas.py)

`Episode` and `Show` are the pydantic models; the `type` literal is kept as a
string (its serialized document form), constrained by validation.  The pydantic
`HttpUrl` fields are modelled as plain optional strings (URL well-formedness
checking is abstracted; no claim depends on it). -/

structure Episode where
  number : Int
  title : String
  duration_minutes : Int
  video_url : Option String
deriving DecidableEq, Repr

structure Show where
  title : String
  description : String
  genres : List String
  type : String
  year : Option Int
  rating : Option Rat
  poster_url : Option String
  backdrop_url : Option String
  tags : List String
  episodes : Option (List Episode)
deriving DecidableEq, Repr

/-- A document of the `show` collection: the store-generated `_id` (canonical
lowercase 24-hex ObjectId string) together with the Show fields. -/
structure ShowDoc where
  id : String
  show_ : Show
deriving DecidableEq, Repr

/-! ### The `$regex` operator with option `i`

`list_shows` builds `{"title": {"$regex": q, "$options": "i"}}`: MongoDB
matches `q` as a PCRE regular expression, unanchored and case-insensitively,
against the title.  We embed the fragment of PCRE generated by patterns built
from literal characters and the metacharacter `.` (match any character); the
parser below treats every other character as a literal, so the model agrees
with PCRE on every pattern that contains no metacharacter other than `.`. -/

/-- A regex token of the modelled fragment: a literal character or `.`. -/
inductive RegTok where
  | dot
  | lit (c : Char)
deriving DecidableEq, Repr

/-- Reads a pattern string into tokens: `.` is the any-character wildcard,
every other character stands for itself. -/
def parseRegex (s : String) : List RegTok :=
  s.toList.map (fun c => if c = '.' then RegTok.dot else RegTok.lit c)

/-- Case-insensitive match of one token against one character (option `i`). -/
def tokMatches : RegTok → Char → Bool
  | RegTok.dot, _ => true
  | RegTok.lit l, c => l.toLower == c.toLower

/-- The token list matches a prefix of the character list. -/
def matchHere : List RegTok → List Char → Bool
  | [], _ => true
  | _ :: _, [] => false
  | t :: ts, c :: cs => tokMatches t c && matchHere ts cs

/-- The token list matches somewhere in the character list (unanchored). -/
def matchSomewhere (ts : List RegTok) : List Char → Bool
  | [] => matchHere ts []
  | c :: cs => matchHere ts (c :: cs) || matchSomewhere ts cs

/-- Embeds the store's evaluation of `{"$regex": q, "$options": "i"}` against a
string field, on the modelled pattern fragment. -/
def regexIMatch (q : String) (field : String) : Bool :=
  matchSomewhere (parseRegex q) field.toList

/-- PCRE metacharacters.  On patterns free of all of these the modelled
fragment is total and agrees with PCRE. -/
def isRegexMeta (c : Char) : Bool :=
  c = '\\' || c = '^' || c = '$' || c = '.' || c = '|' || c = '?' || c = '*' ||
  c = '+' || c = '(' || c = ')' || c = '[' || c = ']' || c = '\x7b' || c = '\x7d'

/-! ### Case-insensitive substring matching (the spec's wording for `q`) -/

/-- Case-insensitive: the first list is a prefix of the second up to case. -/
def listIsPrefixCI : List Char → List Char → Bool
  | [], _ => true
  | _ :: _, [] => false
  | a :: as, b :: bs => (a.toLower == b.toLower) && listIsPrefixCI as bs

/-- Case-insensitive: the first list occurs contiguously in the second. -/
def listIsInfixCI (n : List Char) : List Char → Bool
  | [] => listIsPrefixCI n []
  | c :: cs => listIsPrefixCI n (c :: cs) || listIsInfixCI n cs

/-- The spec's predicate for `q`: `needle` occurs as a case-insensitive
substring of `hay`. -/
def isSubstrCI (needle hay : String) : Bool :=
  listIsInfixCI needle.toList hay.toList

/-! ### GET /shows — the Query Filter Builder (src/main.py, list_shows) -/

/-- Python truthiness of an optional string parameter: `if q:` is taken only
when the parameter was supplied and is non-empty. -/
def pyTruthy : Option String → Bool
  | none => false
  | some s => !s.isEmpty

/-- The filter dict `filt` built by `list_shows`: an optional constraint per
field, present exactly when the corresponding parameter is truthy. -/
structure ShowFilter where
  title_regex : Option String
  genres_has : Option String
  type_eq : Option String
  tags_has : Option String
deriving DecidableEq, Repr

/-- Embeds the four `if` statements of `list_shows` that populate `filt`. -/
def buildShowFilter (q genre type tag : Option String) : ShowFilter :=
  { title_regex := if pyTruthy q then q else none
  , genres_has := if pyTruthy genre then genre else none
  , type_eq := if pyTruthy type then type else none
  , tags_has := if pyTruthy tag then tag else none }

/-- Mongo evaluation of `filt` against one document: `$regex`/`i` on `title`;
equality on a list-valued field (`genres`, `tags`) means membership; `type` is
a plain equality match. -/
def showMatches (f : ShowFilter) (s : Show) : Bool :=
  (match f.title_regex with | none => true | some p => regexIMatch p s.title) &&
  (match f.genres_has with | none => true | some g => s.genres.contains g) &&
  (match f.type_eq with | none => true | some t => s.type == t) &&
  (match f.tags_has with | none => true | some t => s.tags.contains t)

/-- Embeds pymongo `cursor.limit(l)` (the `l` is an arbitrary Python int): a
limit of `0` is equivalent to setting no limit; a non-zero limit caps the
result at `|l|` documents (a negative limit tells the server to return at most
`|l|` documents and close the cursor). -/
def mongoLimit {α : Type} (l : Int) (xs : List α) : List α :=
  if l = 0 then xs else xs.take l.natAbs

/-- Embeds `list_shows` (GET /shows) on a connected store: build `filt` from
the parameters, run `find(filt)` over the `show` collection, apply
`limit(limit)`. -/
def list_shows (q genre type tag : Option String) (limit : Int)
    (store : List ShowDoc) : List ShowDoc :=
  mongoLimit limit
    (store.filter (fun d => showMatches (buildShowFilter q genre type tag) d.show_))

/-! ### GET /shows/{id} — Single-Show Lookup (src/main.py, get_show)

The endpoint first checks `db is None` (→ HTTP 500), then runs

    try:
        doc = db["show"].find_one({"_id": ObjectId(show_id)})
    except Exception:
        raise HTTPException(400, "Invalid id")

so both an invalid `show_id` (the `ObjectId` constructor raising) and a store
exception out of `find_one` land in the same `except` and produce HTTP 400.
A store call is therefore modelled as either yielding the collection or
raising. -/

/-- Outcome of touching a store collection: the documents, or an exception out
of the driver (connection loss, timeout, ...). -/
inductive StoreConn (α : Type) where
  | ok (val : α)
  | failure
deriving DecidableEq, Repr

/-- Result of an endpoint call: a value, or an HTTPException with status code
and detail string. -/
inductive ApiResult (α : Type) where
  | ok (val : α)
  | error (status : Nat) (detail : String)
deriving DecidableEq, Repr

/-- Embeds `find_one({"_id": oid})`: the first document whose `_id` equals the
ObjectId denoted by the canonical string `oid`. -/
def findShowById (docs : List ShowDoc) (oid : String) : Option ShowDoc :=
  docs.find? (fun d => d.id == oid)

/-- Embeds `get_show` (GET /shows/{id}): `db is None` → 500; then the try
block — `ObjectId(show_id)` raising or `find_one` raising both give
400 "Invalid id"; a missing document gives 404; else the document. -/
def get_show (db : Option (StoreConn (List ShowDoc))) (show_id : String) :
    ApiResult ShowDoc :=
  match db with
  | none => ApiResult.error 500 "Database not configured"
  | some conn =>
    match objectIdParse show_id with
    | none => ApiResult.error 400 "Invalid id"
    | some oid =>
      match conn with
      | StoreConn.failure => ApiResult.error 400 "Invalid id"
      | StoreConn.ok docs =>
        match findShowById docs oid with
        | none => ApiResult.error 404 "Not found"
        | some doc => ApiResult.ok doc

/-! ### GET /watchlist — the Join Resolver (src/main.py, get_watchlist) -/

/-- A document of the `watchlistitem` collection (plus its `_id`, which the
join never reads and which is omitted here). -/
structure WatchlistDoc where
  user_id : String
  show_id : String
deriving DecidableEq, Repr

/-- The list comprehension of `get_watchlist`: the `ObjectId`s of the
watchlist entries of `user_id` whose `show_id` passes `ObjectId.is_valid`
(invalid entries are silently dropped). -/
def watchlistValidIds (wl : List WatchlistDoc) (user_id : String) : List String :=
  (wl.filter (fun i => i.user_id == user_id)).filterMap (fun i => objectIdParse i.show_id)

/-- Embeds `get_watchlist` (GET /watchlist) on a connected store.  The first
component records whether the `show` collection was queried at all: the code
runs `db["show"].find({"_id": {"$in": show_ids}})` only when `show_ids` is
non-empty, and returns `[]` without a lookup otherwise. -/
def get_watchlist (wl : List WatchlistDoc) (shows : List ShowDoc)
    (user_id : String) : Bool × List ShowDoc :=
  let show_ids := watchlistValidIds wl user_id
  if show_ids.isEmpty then (false, [])
  else (true, shows.filter (fun s => show_ids.contains s.id))

/-! ### POST /progress and GET /progress — the Upsert Coordinator
(src/main.py, set_progress / get_progress) -/

/-- The `UserProgress` pydantic model; its `model_dump()` is exactly these
four fields, so the stored document (minus the store-generated `_id`, which
`$set` never touches and no claim reads) has this same shape. -/
structure UserProgress where
  user_id : String
  show_id : String
  episode_number : Int
  position_seconds : Int
deriving DecidableEq, Repr

/-- Embeds `update_one({"user_id": .., "show_id": ..}, {"$set": p.model_dump()},
upsert=True)`: replace the fields of the first document matching the key
wholesale with `p`; if none matches, insert a new document with `p`'s
fields. -/
def set_progress : List UserProgress → UserProgress → List UserProgress
  | [], p => [p]
  | d :: ds, p =>
    if d.user_id == p.user_id && d.show_id == p.show_id then p :: ds
    else d :: set_progress ds p

/-- Embeds `get_progress` (GET /progress): `find_one` on the key; `none`
models the endpoint's empty-object response for a missing record. -/
def get_progress (state : List UserProgress) (user_id show_id : String) :
    Option UserProgress :=
  state.find? (fun d => d.user_id == user_id && d.show_id == show_id)

/-- The (user_id, show_id) keys of the `userprogress` collection, in store
order. -/
def progressKeys (state : List UserProgress) : List (String × String) :=
  state.map (fun d => (d.user_id, d.show_id))

/-! ### POST /shows — pydantic validation (src/schemas.py) and creation

The raw JSON body is modelled with every field optional; `none` stands for an
absent (or JSON-null, for the Optional fields) field.  `Show.validate` embeds
exactly the constraints the pydantic model declares: `title` and `description`
are required `str` (any string, no length constraint), `genres`/`tags` default
to `[]`, `type` is the literal "anime" | "cartoon" defaulting to "anime",
`year` ∈ [1900, 2100] and `rating` ∈ [0, 10] when present, and each episode
needs `number ≥ 1`, a `title`, and `duration_minutes` ∈ [1, 300].  (`HttpUrl`
parsing is abstracted: URL fields pass through as strings.) -/

structure EpisodeInput where
  number : Option Int
  title : Option String
  duration_minutes : Option Int
  video_url : Option String
deriving DecidableEq, Repr

structure ShowInput where
  title : Option String
  description : Option String
  genres : Option (List String)
  type : Option String
  year : Option Int
  rating : Option Rat
  poster_url : Option String
  backdrop_url : Option String
  tags : Option (List String)
  episodes : Option (List EpisodeInput)
deriving DecidableEq, Repr

/-- Pydantic validation of one `Episode`. -/
def Episode.validate (e : EpisodeInput) : Except String Episode :=
  match e.number with
  | none => Except.error "episodes.number: field required"
  | some n =>
    if n < 1 then Except.error "episodes.number: ge=1 violated"
    else match e.title with
    | none => Except.error "episodes.title: field required"
    | some t =>
      match e.duration_minutes with
      | none => Except.error "episodes.duration_minutes: field required"
      | some dm =>
        if dm < 1 || 300 < dm then
          Except.error "episodes.duration_minutes: range violated"
        else Except.ok { number := n, title := t, duration_minutes := dm,
                         video_url := e.video_url }

/-- Pydantic validation of a `Show` body. -/
def Show.validate (inp : ShowInput) : Except String Show :=
  match inp.title with
  | none => Except.error "title: field required"
  | some title =>
    match inp.description with
    | none => Except.error "description: field required"
    | some description =>
      let ty := inp.type.getD "anime"
      if !(ty == "anime" || ty == "cartoon") then
        Except.error "type: unexpected value"
      else if (inp.year.map (fun y => y < 1900 || 2100 < y)).getD false then
        Except.error "year: range violated"
      else if (inp.rating.map (fun r => r < 0 || 10 < r)).getD false then
        Except.error "rating: range violated"
      else
        match inp.episodes with
        | none =>
          Except.ok { title := title, description := description,
                      genres := inp.genres.getD [], type := ty,
                      year := inp.year, rating := inp.rating,
                      poster_url := inp.poster_url,
                      backdrop_url := inp.backdrop_url,
                      tags := inp.tags.getD [], episodes := none }
        | some es =>
          match es.mapM Episode.validate with
          | Except.error e => Except.error e
          | Except.ok ves =>
            Except.ok { title := title, description := description,
                        genres := inp.genres.getD [], type := ty,
                        year := inp.year, rating := inp.rating,
                        poster_url := inp.poster_url,
                        backdrop_url := inp.backdrop_url,
                        tags := inp.tags.getD [], episodes := some ves }

/-- Modelled from the spec: `create_document` (imported from `database`, a
module of this repository that is not under src/) "insert[s] one new document
and return[s] its generated identifier" (§4.4); the store generates a fresh
ObjectId for `_id`.  Identifier generation is nondeterministic, so the fresh
id is a parameter here. -/
def create_document_show (store : List ShowDoc) (newId : String) (s : Show) :
    List ShowDoc :=
  store ++ [{ id := newId, show_ := s }]

/-- Embeds POST /shows on a connected store: FastAPI validates the body
against the `Show` model before `create_show` runs (a validation error is
returned with no store call), then the handler inserts the document and
returns the generated id. -/
def create_show (inp : ShowInput) (store : List ShowDoc) (newId : String) :
    Except String (List ShowDoc × String) :=
  match Show.validate inp with
  | Except.error e => Except.error e
  | Except.ok s => Except.ok (create_document_show store newId s, newId)

/-! ### Demo data for concrete instantiations -/

/-- A concrete show used for concrete instantiations. -/
def demoShow : Show :=
  { title := "abc", description := "d", genres := ["action"], type := "anime"
  , year := some 2013, rating := none, poster_url := none, backdrop_url := none
  , tags := ["trending"], episodes := none }

/-- The demo show as a stored document. -/
def demoDoc : ShowDoc :=
  { id := "0123456789abcdef01234567", show_ := demoShow }

/-- A one-document `show` collection. -/
def demoStore : List ShowDoc := [demoDoc]

/-! ### Helper lemmas -/

theorem mem_of_mem_mongoLimit {α : Type} {l : Int} {xs : List α} {a : α}
    (h : a ∈ mongoLimit l xs) : a ∈ xs := by
  unfold mongoLimit at h
  split at h
  · exact h
  · exact List.mem_of_mem_take h

theorem mem_list_shows {q genre type tag : Option String} {limit : Int}
    {store : List ShowDoc} {d : ShowDoc}
    (h : d ∈ list_shows q genre type tag limit store) :
    d ∈ store ∧ showMatches (buildShowFilter q genre type tag) d.show_ = true := by
  have h' := mem_of_mem_mongoLimit h
  exact ⟨(List.mem_filter.mp h').1, (List.mem_filter.mp h').2⟩

theorem pyTruthy_some {s : String} (h : s ≠ "") : pyTruthy (some s) = true := by
  have he : s.isEmpty = false := by
    cases he : s.isEmpty
    · rfl
    · exact absurd ((String.isEmpty_iff s).mp he) h
  simp [pyTruthy, he]

theorem showMatches_parts {f : ShowFilter} {s : Show} (h : showMatches f s = true) :
    (∀ p, f.title_regex = some p → regexIMatch p s.title = true) ∧
    (∀ g, f.genres_has = some g → s.genres.contains g = true) ∧
    (∀ t, f.type_eq = some t → s.type = t) ∧
    (∀ t, f.tags_has = some t → s.tags.contains t = true) := by
  unfold showMatches at h
  simp only [Bool.and_eq_true] at h
  obtain ⟨⟨⟨h1, h2⟩, h3⟩, h4⟩ := h
  refine ⟨fun p hp => ?_, fun g hg => ?_, fun t ht => ?_, fun t ht => ?_⟩
  · rw [hp] at h1; exact h1
  · rw [hg] at h2; exact h2
  · rw [ht] at h3; exact eq_of_beq h3
  · rw [ht] at h4; exact h4

/-! ### The modelled regex fragment versus substring matching -/

theorem matchHere_map_lit (as : List Char) :
    ∀ bs : List Char, matchHere (as.map RegTok.lit) bs = listIsPrefixCI as bs := by
  induction as with
  | nil => intro bs; rfl
  | cons a as ih =>
    intro bs
    cases bs with
    | nil => rfl
    | cons b bs => simp [matchHere, listIsPrefixCI, tokMatches, ih]

theorem matchSomewhere_map_lit (as : List Char) :
    ∀ bs : List Char, matchSomewhere (as.map RegTok.lit) bs = listIsInfixCI as bs := by
  intro bs
  induction bs with
  | nil => simp [matchSomewhere, listIsInfixCI, matchHere_map_lit]
  | cons b bs ih => simp [matchSomewhere, listIsInfixCI, matchHere_map_lit, ih]

theorem parseRegex_of_no_meta {s : String}
    (h : s.toList.all (fun c => !isRegexMeta c) = true) :
    parseRegex s = s.toList.map RegTok.lit := by
  unfold parseRegex
  apply List.map_congr_left
  intro c hc
  have hm : isRegexMeta c = false := by
    have := (List.all_eq_true.mp h) c hc
    simpa using this
  have hdot : c ≠ '.' := by
    intro hd
    rw [hd] at hm
    exact absurd hm (by decide)
  simp [hdot]

/-- On patterns free of PCRE metacharacters, the `$regex`/`i` match of the
code coincides with the case-insensitive substring predicate of the spec. -/
theorem regexIMatch_eq_isSubstrCI {s : String} (t : String)
    (h : s.toList.all (fun c => !isRegexMeta c) = true) :
    regexIMatch s t = isSubstrCI s t := by
  unfold regexIMatch isSubstrCI
  rw [parseRegex_of_no_meta h, matchSomewhere_map_lit]

/-! ### C1: records returned by GET /shows satisfy the supplied filters -/

/-- C1 counterexample: `q` is passed to the store as a regular expression, not
quoted as a literal substring.  With `q = "a.c"` the document titled "abc" is
returned (the `.` matches `b`), yet "a.c" does not occur as a case-insensitive
substring of "abc" — so "q occurs as a substring (not a pattern match) of the
title" is false as stated. -/
theorem listShows_q_is_pattern_not_substring :
    list_shows (some "a.c") none none none 50 demoStore = demoStore ∧
    isSubstrCI "a.c" demoShow.title = false := by
  constructor
  · rfl
  · rfl

/-- C1 (amended): every record returned by GET /shows comes from the store and
satisfies the supplied filters conjointly — `type` equal to the supplied type,
the supplied genre a member of `genres`, the supplied tag a member of `tags`,
and the supplied `q` matching the title as a case-insensitive regular
expression, which coincides with case-insensitive substring matching whenever
`q` contains no regex metacharacter; absent (and empty-string) parameters
impose no constraint. -/
theorem listShows_filter_conformance (q genre type tag : Option String)
    (limit : Int) (store : List ShowDoc) (d : ShowDoc)
    (hd : d ∈ list_shows q genre type tag limit store) :
    d ∈ store ∧
    (∀ s, q = some s → s ≠ "" → regexIMatch s d.show_.title = true) ∧
    (∀ s, q = some s → s ≠ "" → s.toList.all (fun c => !isRegexMeta c) = true →
      isSubstrCI s d.show_.title = true) ∧
    (∀ s, genre = some s → s ≠ "" → d.show_.genres.contains s = true) ∧
    (∀ s, type = some s → s ≠ "" → d.show_.type = s) ∧
    (∀ s, tag = some s → s ≠ "" → d.show_.tags.contains s = true) := by
  obtain ⟨hmem, hmatch⟩ := mem_list_shows hd
  obtain ⟨ht, hg, hty, htg⟩ := showMatches_parts hmatch
  have hq : ∀ s, q = some s → s ≠ "" → regexIMatch s d.show_.title = true := by
    intro s hs hne
    apply ht
    subst hs
    simp [buildShowFilter, pyTruthy_some hne]
  refine ⟨hmem, hq, ?_, ?_, ?_, ?_⟩
  · intro s hs hne hnometa
    rw [← regexIMatch_eq_isSubstrCI _ hnometa]
    exact hq s hs hne
  · intro s hs hne
    apply hg
    subst hs
    simp [buildShowFilter, pyTruthy_some hne]
  · intro s hs hne
    apply hty
    subst hs
    simp [buildShowFilter, pyTruthy_some hne]
  · intro s hs hne
    apply htg
    subst hs
    simp [buildShowFilter, pyTruthy_some hne]

/-- C1 witness: the demo document is returned for `q = "b"`, `tag =
"trending"`, and satisfies the instantiated filter predicates. -/
theorem listShows_filter_conformance_witness :
    demoDoc ∈ list_shows (some "b") none none (some "trending") 50 demoStore ∧
    (demoDoc ∈ demoStore ∧
    (∀ s, (some "b" : Option String) = some s → s ≠ "" →
      regexIMatch s demoDoc.show_.title = true) ∧
    (∀ s, (some "b" : Option String) = some s → s ≠ "" →
      s.toList.all (fun c => !isRegexMeta c) = true →
      isSubstrCI s demoDoc.show_.title = true) ∧
    (∀ s, (none : Option String) = some s → s ≠ "" →
      demoDoc.show_.genres.contains s = true) ∧
    (∀ s, (none : Option String) = some s → s ≠ "" →
      demoDoc.show_.type = s) ∧
    (∀ s, (some "trending" : Option String) = some s → s ≠ "" →
      demoDoc.show_.tags.contains s = true)) :=
  ⟨by decide,
   listShows_filter_conformance (some "b") none none (some "trending") 50
     demoStore demoDoc (by decide)⟩

/-! ### C10: empty-string parameters impose no constraint -/

/-- C10: for GET /shows, supplying `q`, `genre` or `tag` as the empty string
imposes no filter constraint — the result is identical to omitting the
parameter entirely. -/
theorem listShows_empty_param_absent (q genre type tag : Option String)
    (limit : Int) (store : List ShowDoc) :
    list_shows (some "") genre type tag limit store =
      list_shows none genre type tag limit store ∧
    list_shows q (some "") type tag limit store =
      list_shows q none type tag limit store ∧
    list_shows q genre type (some "") limit store =
      list_shows q genre type none limit store := by
  refine ⟨?_, ?_, ?_⟩ <;> rfl

/-! ### C4: the `limit` parameter -/

/-- C4 counterexample: with `limit = 0` the code returns every matching
record (pymongo treats a limit of 0 as "no limit"), so a one-document store
yields one record, not at most zero. -/
theorem listShows_limit_zero_unbounded :
    ¬ ((list_shows none none none none 0 demoStore).length ≤ 0) := by
  decide

/-- C4 (amended): for every non-zero `limit` (default 50), GET /shows returns
at most `|limit|` records; `limit = 0` disables the cap. -/
theorem listShows_length_le_limit (q genre type tag : Option String)
    (limit : Int) (store : List ShowDoc) (h : limit ≠ 0) :
    (list_shows q genre type tag limit store).length ≤ limit.natAbs := by
  unfold list_shows mongoLimit
  rw [if_neg h]
  exact le_trans (Nat.le_of_eq (List.length_take _ _)) (Nat.min_le_left _ _)

/-- C4 witness: at the default `limit = 50` on the demo store the bound holds
concretely. -/
theorem listShows_length_le_limit_witness :
    (50 : Int) ≠ 0 ∧
    (list_shows none none none none 50 demoStore).length ≤ (50 : Int).natAbs :=
  ⟨by decide, listShows_length_le_limit none none none none 50 demoStore (by decide)⟩

/-! ### C5: GET /shows/{id} error classification -/

/-- C5: on a working store, GET /shows/{id} with a syntactically invalid id
fails with InvalidArgument (HTTP 400); with a well-formed id of no matching
document it fails with NotFound (HTTP 404); and with a well-formed id of an
existing document it returns that document. -/
theorem getShow_spec (docs : List ShowDoc) (show_id : String) :
    (isValidObjectId show_id = false →
      get_show (some (StoreConn.ok docs)) show_id = ApiResult.error 400 "Invalid id") ∧
    (∀ oid, objectIdParse show_id = some oid → findShowById docs oid = none →
      get_show (some (StoreConn.ok docs)) show_id = ApiResult.error 404 "Not found") ∧
    (∀ oid d, objectIdParse show_id = some oid → findShowById docs oid = some d →
      get_show (some (StoreConn.ok docs)) show_id = ApiResult.ok d) := by
  refine ⟨?_, ?_, ?_⟩
  · intro h
    simp [get_show, objectIdParse, h]
  · intro oid hp hf
    simp [get_show, hp, hf]
  · intro oid d hp hf
    simp [get_show, hp, hf]

/-- C5 witness: the three branches at concrete inputs on the demo store. -/
theorem getShow_spec_witness :
    get_show (some (StoreConn.ok demoStore)) "zz" =
      ApiResult.error 400 "Invalid id" ∧
    get_show (some (StoreConn.ok demoStore)) "aaaaaaaaaaaaaaaaaaaaaaaa" =
      ApiResult.error 404 "Not found" ∧
    get_show (some (StoreConn.ok demoStore)) "0123456789abcdef01234567" =
      ApiResult.ok demoDoc :=
  ⟨(getShow_spec demoStore "zz").1 (by decide),
   (getShow_spec demoStore "aaaaaaaaaaaaaaaaaaaaaaaa").2.1
     "aaaaaaaaaaaaaaaaaaaaaaaa" (by decide) (by decide),
   (getShow_spec demoStore "0123456789abcdef01234567").2.2
     "0123456789abcdef01234567" demoDoc (by decide) (by decide)⟩

/-! ### C6: classification of store failures -/

/-- C6: in `get_show` the store call `find_one` sits inside the same
`try/except` as the `ObjectId` constructor, so a store failure on a perfectly
well-formed id surfaces as HTTP 400 "Invalid id" — a client-error
classification — and not as the ServiceUnavailable (500-level) failure the
spec requires for store errors. -/
theorem getShow_store_failure_yields_client_error :
    isValidObjectId "0123456789abcdef01234567" = true ∧
    get_show (some StoreConn.failure) "0123456789abcdef01234567" =
      ApiResult.error 400 "Invalid id" := by
  constructor
  · rfl
  · rfl

/-! ### C2: GET /watchlist resolves exactly the validly referenced shows -/

/-- C2: under the store invariant that `_id`s of the `show` collection are
distinct, GET /watchlist returns exactly the set of shows whose identifier
appears among the syntactically valid `show_id` references of the user's
watchlist entries; invalid references are dropped without error, at most as
many shows are returned as there are valid references, and with no valid
reference the result is empty with no `show` lookup issued. -/
theorem getWatchlist_spec (wl : List WatchlistDoc) (shows : List ShowDoc)
    (user_id : String) (hnodup : (shows.map ShowDoc.id).Nodup) :
    (∀ s, s ∈ (get_watchlist wl shows user_id).2 ↔
      s ∈ shows ∧ s.id ∈ watchlistValidIds wl user_id) ∧
    (get_watchlist wl shows user_id).2.length ≤
      (watchlistValidIds wl user_id).length ∧
    (watchlistValidIds wl user_id = [] →
      get_watchlist wl shows user_id = (false, [])) := by
  by_cases hids : (watchlistValidIds wl user_id).isEmpty
  · have hnil : watchlistValidIds wl user_id = [] := by
      cases h : watchlistValidIds wl user_id with
      | nil => rfl
      | cons a l => rw [h] at hids; exact absurd hids (by simp)
    refine ⟨?_, ?_, ?_⟩
    · intro s
      simp [get_watchlist, hnil]
    · simp [get_watchlist, hnil]
    · intro _
      simp [get_watchlist, hnil]
  · have hres : get_watchlist wl shows user_id =
        (true, shows.filter
          (fun s => (watchlistValidIds wl user_id).contains s.id)) := by
      simp [get_watchlist, hids]
    refine ⟨?_, ?_, ?_⟩
    · intro s
      rw [hres]
      simp [List.mem_filter]
    · rw [hres]
      have hsub : ((shows.filter
          (fun s => (watchlistValidIds wl user_id).contains s.id)).map
            ShowDoc.id).Nodup :=
        hnodup.sublist ((shows.filter_sublist).map ShowDoc.id)
      have hss : ((shows.filter
          (fun s => (watchlistValidIds wl user_id).contains s.id)).map
            ShowDoc.id) ⊆ watchlistValidIds wl user_id := by
        intro x hx
        obtain ⟨d, hd, rfl⟩ := List.mem_map.mp hx
        have := (List.mem_filter.mp hd).2
        simpa using this
      have hlen := (hsub.subperm hss).length_le
      simpa using hlen
    · intro hnil
      rw [hnil] at hids
      exact absurd rfl hids

/-- C2 witness: a watchlist with one valid and one malformed reference on the
demo store resolves to exactly the demo document. -/
theorem getWatchlist_spec_witness :
    (demoStore.map ShowDoc.id).Nodup ∧
    (demoDoc ∈ (get_watchlist
        [{ user_id := "u1", show_id := "0123456789abcdef01234567" },
         { user_id := "u1", show_id := "notvalid" }] demoStore "u1").2 ↔
      demoDoc ∈ demoStore ∧ demoDoc.id ∈ watchlistValidIds
        [{ user_id := "u1", show_id := "0123456789abcdef01234567" },
         { user_id := "u1", show_id := "notvalid" }] "u1") :=
  ⟨by decide,
   (getWatchlist_spec
      [{ user_id := "u1", show_id := "0123456789abcdef01234567" },
       { user_id := "u1", show_id := "notvalid" }] demoStore "u1"
      (by decide)).1 demoDoc⟩

/-! ### C3: the last upsert wins, wholesale -/

theorem get_progress_set_progress (state : List UserProgress) (p : UserProgress) :
    get_progress (set_progress state p) p.user_id p.show_id = some p := by
  induction state with
  | nil => simp [set_progress, get_progress, List.find?]
  | cons d ds ih =>
    by_cases h : (d.user_id == p.user_id && d.show_id == p.show_id) = true
    · simp [set_progress, h, get_progress, List.find?]
    · have hs : set_progress (d :: ds) p = d :: set_progress ds p := by
        simp [set_progress, h]
      rw [hs]
      have hg : (d.user_id == p.user_id && d.show_id == p.show_id) = false := by
        simpa using h
      simpa [get_progress, List.find?, hg] using ih

/-- C3: after a sequence of upserts via POST /progress all keyed by the same
(user_id, show_id), GET /progress for that key returns exactly the record of
the last upsert — every field replaced wholesale, from any starting state of
the collection. -/
theorem progress_last_upsert_wins (state ps : List UserProgress)
    (p : UserProgress) (u s : String)
    (hkeys : ∀ r ∈ ps ++ [p], r.user_id = u ∧ r.show_id = s) :
    get_progress (List.foldl set_progress state (ps ++ [p])) u s = some p := by
  obtain ⟨hu, hs⟩ := hkeys p (by simp)
  rw [List.foldl_append]
  simpa [hu, hs] using
    get_progress_set_progress (List.foldl set_progress state ps) p

/-- C3 witness: the spec's own example — progress for episode 3 then episode 5
on the same key; the read returns episode 5 with all fields from the second
upsert. -/
theorem progress_last_upsert_wins_witness :
    (∀ r ∈ ([⟨"u1", "s1", 3, 120⟩] ++ [⟨"u1", "s1", 5, 0⟩] :
        List UserProgress), r.user_id = "u1" ∧ r.show_id = "s1") ∧
    get_progress (List.foldl set_progress []
        ([⟨"u1", "s1", 3, 120⟩] ++ [⟨"u1", "s1", 5, 0⟩])) "u1" "s1" =
      some ⟨"u1", "s1", 5, 0⟩ :=
  ⟨by decide,
   progress_last_upsert_wins [] [⟨"u1", "s1", 3, 120⟩] ⟨"u1", "s1", 5, 0⟩
     "u1" "s1" (by decide)⟩

/-! ### C7: at most one progress record per (user_id, show_id) -/

theorem mem_progressKeys_set_progress {state : List UserProgress}
    {p : UserProgress} {x : String × String}
    (h : x ∈ progressKeys (set_progress state p)) :
    x ∈ progressKeys state ∨ x = (p.user_id, p.show_id) := by
  induction state with
  | nil =>
    right
    simpa [set_progress, progressKeys] using h
  | cons d ds ih =>
    by_cases hm : (d.user_id == p.user_id && d.show_id == p.show_id) = true
    · simp only [set_progress, hm, if_pos] at h
      simp only [progressKeys, List.map_cons, List.mem_cons] at h ⊢
      rcases h with h | h
      · right; rw [h]
      · left; right; exact h
    · simp only [set_progress, hm, if_neg, Bool.not_eq_true] at h
      simp only [progressKeys, List.map_cons, List.mem_cons] at h ⊢
      rcases h with h | h
      · left; left; exact h
      · rcases ih h with h' | h'
        · left; right; exact h'
        · right; exact h'

theorem progressKeys_nodup_set_progress (state : List UserProgress)
    (p : UserProgress) (h : (progressKeys state).Nodup) :
    (progressKeys (set_progress state p)).Nodup := by
  induction state with
  | nil => simp [set_progress, progressKeys]
  | cons d ds ih =>
    simp only [progressKeys, List.map_cons, List.nodup_cons] at h
    obtain ⟨hd, hds⟩ := h
    by_cases hm : (d.user_id == p.user_id && d.show_id == p.show_id) = true
    · have hm' : d.user_id = p.user_id ∧ d.show_id = p.show_id := by
        simpa using hm
      have hkey : (p.user_id, p.show_id) = (d.user_id, d.show_id) := by
        rw [hm'.1, hm'.2]
      simp only [set_progress, hm, if_pos, progressKeys, List.map_cons,
        List.nodup_cons]
      rw [hkey]
      exact ⟨hd, hds⟩
    · simp only [set_progress, hm, if_neg, Bool.not_eq_true, progressKeys,
        List.map_cons, List.nodup_cons]
      refine ⟨?_, ih hds⟩
      intro hmem
      rcases mem_progressKeys_set_progress hmem with h' | h'
      · exact hd h'
      · have h1 : d.user_id = p.user_id := congrArg Prod.fst h'
        have h2 : d.show_id = p.show_id := congrArg Prod.snd h'
        exact hm (by simp [h1, h2])

theorem progressKeys_nodup_foldl (ps : List UserProgress) :
    ∀ state : List UserProgress, (progressKeys state).Nodup →
      (progressKeys (List.foldl set_progress state ps)).Nodup := by
  induction ps with
  | nil => intro state h; simpa using h
  | cons p ps ih =>
    intro state h
    rw [List.foldl_cons]
    exact ih _ (progressKeys_nodup_set_progress state p h)

/-- C7: every progress upsert preserves the invariant that the `userprogress`
collection holds at most one record per (user_id, show_id) key, and after any
sequence of POST /progress operations starting from an empty collection the
invariant holds. -/
theorem progress_at_most_one_per_key :
    (∀ state p, (progressKeys state).Nodup →
      (progressKeys (set_progress state p)).Nodup) ∧
    (∀ ps, (progressKeys (List.foldl set_progress [] ps)).Nodup) :=
  ⟨progressKeys_nodup_set_progress,
   fun ps => progressKeys_nodup_foldl ps [] (by simp [progressKeys])⟩

/-- C7 witness: the preservation component applied at a concrete state and
upsert. -/
theorem progress_at_most_one_per_key_witness :
    (progressKeys [⟨"u1", "s1", 3, 120⟩]).Nodup ∧
    (progressKeys (set_progress [⟨"u1", "s1", 3, 120⟩]
        ⟨"u2", "s1", 1, 0⟩)).Nodup :=
  ⟨by decide,
   progress_at_most_one_per_key.1 [⟨"u1", "s1", 3, 120⟩] ⟨"u2", "s1", 1, 0⟩
     (by decide)⟩

/-! ### C8: POST /shows then GET /shows/{id} round-trips -/

theorem findShowById_append_fresh (store : List ShowDoc) (newId : String)
    (s : Show) (hfresh : ∀ d ∈ store, d.id ≠ newId) :
    findShowById (store ++ [{ id := newId, show_ := s }]) newId =
      some { id := newId, show_ := s } := by
  induction store with
  | nil => simp [findShowById, List.find?]
  | cons d ds ih =>
    have hne : (d.id == newId) = false := by
      simpa using hfresh d (by simp)
    simp only [List.cons_append, findShowById, List.find?, hne]
    exact ih (fun d' hd' => hfresh d' (by simp [hd']))

/-- C8: for every body that validates to a Show and every fresh
store-generated identifier, POST /shows inserts the document and returns the
identifier, and GET /shows/{id} with that identifier returns a record equal
in all fields to the validated input plus the identifier. -/
theorem create_then_get_roundtrip (inp : ShowInput) (s : Show)
    (store : List ShowDoc) (newId : String)
    (hval : Show.validate inp = Except.ok s)
    (hid : isValidObjectId newId = true)
    (hlc : strLower newId = newId)
    (hfresh : ∀ d ∈ store, d.id ≠ newId) :
    create_show inp store newId =
      Except.ok (create_document_show store newId s, newId) ∧
    get_show (some (StoreConn.ok (create_document_show store newId s))) newId =
      ApiResult.ok { id := newId, show_ := s } := by
  constructor
  · simp [create_show, hval]
  · have hparse : objectIdParse newId = some newId := by
      simp [objectIdParse, hid, hlc]
    simp [get_show, hparse, create_document_show,
      findShowById_append_fresh store newId s hfresh]

/-- C8 witness: a fully supplied body round-trips on the empty store with a
concrete fresh identifier. -/
theorem create_then_get_roundtrip_witness :
    Show.validate ⟨some "abc", some "d", some ["action"], some "anime",
        some 2013, none, none, none, some ["trending"], none⟩ =
      Except.ok demoShow ∧
    isValidObjectId "aaaaaaaaaaaaaaaaaaaaaaaa" = true ∧
    get_show (some (StoreConn.ok
        (create_document_show [] "aaaaaaaaaaaaaaaaaaaaaaaa" demoShow)))
        "aaaaaaaaaaaaaaaaaaaaaaaa" =
      ApiResult.ok { id := "aaaaaaaaaaaaaaaaaaaaaaaa", show_ := demoShow } :=
  ⟨rfl, by decide,
   (create_then_get_roundtrip
      ⟨some "abc", some "d", some ["action"], some "anime", some 2013, none,
       none, none, some ["trending"], none⟩ demoShow []
      "aaaaaaaaaaaaaaaaaaaaaaaa" rfl (by decide) (by decide)
      (by simp)).2⟩

/-! ### C9: what POST /shows requires of `title` -/

/-- C9 counterexample: the pydantic model declares `title: str` with no
length constraint, so a body with the empty string as title validates and a
Show with empty title is created — POST /shows does not reject it. -/
theorem create_show_accepts_empty_title :
    create_show ⟨some "", some "", none, none, none, none, none, none, none,
        none⟩ [] "aaaaaaaaaaaaaaaaaaaaaaaa" =
      Except.ok
        ([{ id := "aaaaaaaaaaaaaaaaaaaaaaaa",
            show_ := ⟨"", "", [], "anime", none, none, none, none, [], none⟩ }],
         "aaaaaaaaaaaaaaaaaaaaaaaa") := rfl

/-- C9 (amended): POST /shows rejects any input whose title is missing with a
validation error before any store call; a Show is only created when the title
is present as a string — the empty string included (non-emptiness is not
enforced). -/
theorem create_show_requires_title (inp : ShowInput) (store : List ShowDoc)
    (newId : String) :
    (inp.title = none →
      create_show inp store newId = Except.error "title: field required") ∧
    (∀ out, create_show inp store newId = Except.ok out →
      inp.title.isSome = true) := by
  constructor
  · intro h
    simp [create_show, Show.validate, h]
  · intro out hout
    cases hinp : inp.title with
    | none =>
      rw [create_show, Show.validate, hinp] at hout
      exact absurd hout (by simp)
    | some t => rfl

/-- C9 witness: a body with no title is rejected with the validation error,
with no store interaction. -/
theorem create_show_requires_title_witness :
    create_show ⟨none, some "d", none, none, none, none, none, none, none,
        none⟩ [] "aaaaaaaaaaaaaaaaaaaaaaaa" =
      Except.error "title: field required" :=
  (create_show_requires_title
    ⟨none, some "d", none, none, none, none, none, none, none, none⟩ []
    "aaaaaaaaaaaaaaaaaaaaaaaa").1 rfl

end AniFlix
